import Mathlib

/-!
Shallow embedding of the performance-entry telemetry engine from
`ReactCommon/react/nativemodule/webperformance/NativePerformance.cpp`.

Timestamps and durations (`HighResTimeStamp` / `HighResDuration`, internally
nanosecond integer counts in the source) are embedded as `Int`.  The global
mutable `PerformanceEntryReporter` singleton is threaded explicitly as a
state value; the external monotonic clock is passed as an explicit
`currentTimeStamp` argument; a C++ `throw jsi::JSError` is an
`Except.error` carrying the message string, paired with the reporter state
at the throw point (no mutation has happened before any throw in the
source, so the paired state is the input state).
-/

abbrev HighResTimeStamp := Int

abbrev HighResDuration := Int

/-- Entry kinds. The source's `PerformanceEntryType` enum, restricted to the
four variants carried by the `PerformanceEntry` `std::variant`. -/
inductive PerformanceEntryType where
  | mark
  | measure
  | event
  | resource
deriving DecidableEq, Repr

/-- Payload of a Mark entry (name, start time, always-zero duration). -/
structure PerformanceMark where
  name : String
  startTime : HighResTimeStamp
  duration : HighResDuration
deriving DecidableEq, Repr

/-- Payload of a Measure entry. -/
structure PerformanceMeasure where
  name : String
  startTime : HighResTimeStamp
  duration : HighResDuration
deriving DecidableEq, Repr

/-- Payload of an EventTiming entry. -/
structure PerformanceEventTiming where
  name : String
  startTime : HighResTimeStamp
  duration : HighResDuration
  processingStart : HighResTimeStamp
  processingEnd : HighResTimeStamp
  interactionId : Nat
deriving DecidableEq, Repr

/-- Payload of a ResourceTiming entry. -/
structure PerformanceResourceTiming where
  name : String
  startTime : HighResTimeStamp
  duration : HighResDuration
  fetchStart : HighResTimeStamp
  requestStart : HighResTimeStamp
  connectStart : HighResTimeStamp
  connectEnd : HighResTimeStamp
  responseStart : HighResTimeStamp
  responseEnd : HighResTimeStamp
  responseStatus : Int
deriving DecidableEq, Repr

/-- The `PerformanceEntry` tagged union (a `std::variant` in the source). -/
inductive PerformanceEntry where
  | mark (m : PerformanceMark)
  | measure (m : PerformanceMeasure)
  | event (e : PerformanceEventTiming)
  | resource (r : PerformanceResourceTiming)
deriving DecidableEq, Repr

/-- Common field access (`std::visit` over the variant): the entry's name. -/
def PerformanceEntry.name : PerformanceEntry → String
  | .mark m => m.name
  | .measure m => m.name
  | .event e => e.name
  | .resource r => r.name

/-- Common field access: the entry's start time. -/
def PerformanceEntry.startTime : PerformanceEntry → HighResTimeStamp
  | .mark m => m.startTime
  | .measure m => m.startTime
  | .event e => e.startTime
  | .resource r => r.startTime

/-- Common field access: the entry's duration. -/
def PerformanceEntry.duration : PerformanceEntry → HighResDuration
  | .mark m => m.duration
  | .measure m => m.duration
  | .event e => e.duration
  | .resource r => r.duration

/-- The variant's tag as an entry type. -/
def PerformanceEntry.entryType : PerformanceEntry → PerformanceEntryType
  | .mark _ => .mark
  | .measure _ => .measure
  | .event _ => .event
  | .resource _ => .resource

/-- The flat bridge-facing entry shape, with the EventTiming / ResourceTiming
payload fields optional (absent on the other kinds). -/
structure NativePerformanceEntry where
  name : String
  entryType : PerformanceEntryType
  startTime : HighResTimeStamp
  duration : HighResDuration
  processingStart : Option HighResTimeStamp := none
  processingEnd : Option HighResTimeStamp := none
  interactionId : Option Nat := none
  fetchStart : Option HighResTimeStamp := none
  requestStart : Option HighResTimeStamp := none
  connectStart : Option HighResTimeStamp := none
  connectEnd : Option HighResTimeStamp := none
  responseStart : Option HighResTimeStamp := none
  responseEnd : Option HighResTimeStamp := none
  responseStatus : Option Int := none
deriving DecidableEq, Repr

/-- Conversion to the bridge shape: common fields via the generic visitor, then
the extra fields copied for the EventTiming and ResourceTiming alternatives. -/
def toNativePerformanceEntry (entry : PerformanceEntry) : NativePerformanceEntry :=
  let nativeEntry : NativePerformanceEntry :=
    { name := entry.name
      entryType := entry.entryType
      startTime := entry.startTime
      duration := entry.duration }
  match entry with
  | .event eventEntry =>
      { nativeEntry with
        processingStart := some eventEntry.processingStart
        processingEnd := some eventEntry.processingEnd
        interactionId := some eventEntry.interactionId }
  | .resource resourceEntry =>
      { nativeEntry with
        fetchStart := some resourceEntry.fetchStart
        requestStart := some resourceEntry.requestStart
        connectStart := some resourceEntry.connectStart
        connectEnd := some resourceEntry.connectEnd
        responseStart := some resourceEntry.responseStart
        responseEnd := some resourceEntry.responseEnd
        responseStatus := some resourceEntry.responseStatus }
  | _ => nativeEntry

/-- Elementwise conversion of a vector of entries. -/
def toNativePerformanceEntries (entries : List PerformanceEntry) : List NativePerformanceEntry :=
  entries.map toNativePerformanceEntry

/-- Modelled from the spec: the comparator `PerformanceEntrySorter` (declared in
the timeline headers, not in the sources at hand); the spec fixes the global
sort order for multi-entry results as stable sort by `startTime` ascending. -/
def PerformanceEntrySorter (a b : PerformanceEntry) : Prop :=
  a.startTime ≤ b.startTime

instance : DecidableRel PerformanceEntrySorter :=
  fun a b => decidable_of_iff (a.startTime ≤ b.startTime) Iff.rfl

instance : IsTotal PerformanceEntry PerformanceEntrySorter :=
  ⟨fun a b => Int.le_total a.startTime b.startTime⟩

instance : IsTrans PerformanceEntry PerformanceEntrySorter :=
  ⟨fun _ _ _ => Int.le_trans⟩

/-- The source's `sortEntries`: `std::stable_sort` with `PerformanceEntrySorter`,
embedded as a stable structural sort (the output of a stable sort is uniquely
determined by the comparator, so any stable sort embeds `std::stable_sort`
faithfully). -/
def sortEntries (entries : List PerformanceEntry) : List PerformanceEntry :=
  entries.insertionSort PerformanceEntrySorter

/-- The entry types reachable from the performance timeline. -/
def ENTRY_TYPES_AVAILABLE_FROM_TIMELINE : List PerformanceEntryType :=
  [.mark, .measure]

/-- An entry type is available from the timeline iff it is MARK or MEASURE. -/
def isAvailableFromTimeline (entryType : PerformanceEntryType) : Bool :=
  entryType == .mark || entryType == .measure

/-- Modelled from the spec: one per-type bounded entry buffer of the reporter
(`PerformanceEntryBuffer`, not in the sources at hand): insertion-order list,
capacity bound, drop counter. -/
structure PerformanceEntryBuffer where
  capacity : Nat
  entries : List PerformanceEntry
  droppedEntriesCount : Nat
deriving DecidableEq, Repr

/-- Modelled from the spec: buffer insert appends at the tail; beyond capacity
the oldest entry is evicted and the drop counter increments; never fails. -/
def PerformanceEntryBuffer.insert (b : PerformanceEntryBuffer) (entry : PerformanceEntry) :
    PerformanceEntryBuffer :=
  let appended := b.entries ++ [entry]
  if b.capacity < appended.length then
    { b with entries := appended.tail, droppedEntriesCount := b.droppedEntriesCount + 1 }
  else
    { b with entries := appended }

/-- Modelled from the spec: the `PerformanceEntryReporter` registry (not in the
sources at hand) — one buffer per entry type, the mark-name index
(most-recent-first association list, last-write-wins), and the event-count
mapping. -/
structure PerformanceEntryReporter where
  markBuffer : PerformanceEntryBuffer
  measureBuffer : PerformanceEntryBuffer
  eventBuffer : PerformanceEntryBuffer
  resourceBuffer : PerformanceEntryBuffer
  markTimes : List (String × HighResTimeStamp)
  eventCounts : List (String × Nat)
deriving DecidableEq, Repr

/-- The buffer owned by the reporter for a given entry type. -/
def PerformanceEntryReporter.getBuffer (r : PerformanceEntryReporter) :
    PerformanceEntryType → PerformanceEntryBuffer
  | .mark => r.markBuffer
  | .measure => r.measureBuffer
  | .event => r.eventBuffer
  | .resource => r.resourceBuffer

/-- Modelled from the spec: `getMarkTime(name)` looks the name up in the
mark-name index (absent if never recorded). -/
def PerformanceEntryReporter.getMarkTime (r : PerformanceEntryReporter) (markName : String) :
    Option HighResTimeStamp :=
  r.markTimes.lookup markName

/-- Modelled from the spec: `reportMark` constructs a zero-duration Mark entry,
inserts it into the Mark buffer, updates the mark-name index, and returns the
stored entry (observer forwarding is modelled by `PerformanceObserver.handleEntry`
applied per subscribed observer). -/
def PerformanceEntryReporter.reportMark (r : PerformanceEntryReporter) (name : String)
    (startTime : HighResTimeStamp) : PerformanceEntry × PerformanceEntryReporter :=
  let entry : PerformanceEntry := .mark { name := name, startTime := startTime, duration := 0 }
  (entry,
    { r with
      markBuffer := r.markBuffer.insert entry
      markTimes := (name, startTime) :: r.markTimes })

/-- Modelled from the spec: `reportMeasure` constructs a Measure entry with
duration = endTime − startTime (not clamped; negative durations preserved),
inserts it into the Measure buffer, and returns the stored entry. -/
def PerformanceEntryReporter.reportMeasure (r : PerformanceEntryReporter) (name : String)
    (startTime endTime : HighResTimeStamp) : PerformanceEntry × PerformanceEntryReporter :=
  let entry : PerformanceEntry :=
    .measure { name := name, startTime := startTime, duration := endTime - startTime }
  (entry, { r with measureBuffer := r.measureBuffer.insert entry })

/-- Modelled from the spec: `getEntries(outSequence, type, name?)` appends the
given type's buffered entries (optionally filtered by exact name) to the
accumulator, in buffer (insertion) order. -/
def PerformanceEntryReporter.getEntries (r : PerformanceEntryReporter)
    (acc : List PerformanceEntry) (entryType : PerformanceEntryType)
    (entryName : Option String) : List PerformanceEntry :=
  acc ++
    match entryName with
    | none => (r.getBuffer entryType).entries
    | some n => (r.getBuffer entryType).entries.filter (fun e => e.name == n)

/-- State of the `NativePerformance` turbomodule itself: the test-only forced
timestamp (`forcedCurrentTimeStamp_`). -/
structure NativePerformance where
  forcedCurrentTimeStamp : Option HighResTimeStamp
deriving DecidableEq, Repr

/-- The source's `now()`: the forced test timestamp if set, otherwise the
external monotonic clock (`HighResTimeStamp::now()`, passed here as the
explicit `currentTimeStamp` argument). -/
def NativePerformance.now (s : NativePerformance) (currentTimeStamp : HighResTimeStamp) :
    HighResTimeStamp :=
  s.forcedCurrentTimeStamp.getD currentTimeStamp

/-- The source's test-only hook `setCurrentTimeStampForTesting`. -/
def NativePerformance.setCurrentTimeStampForTesting (s : NativePerformance)
    (ts : HighResTimeStamp) : NativePerformance :=
  { s with forcedCurrentTimeStamp := some ts }

/-- The source's `markWithResult`: report a mark at the given time (defaulting
to `now()`), returning the stored entry's start time and the new state. -/
def NativePerformance.markWithResult (s : NativePerformance)
    (currentTimeStamp : HighResTimeStamp) (r : PerformanceEntryReporter) (name : String)
    (startTime : Option HighResTimeStamp) : HighResTimeStamp × PerformanceEntryReporter :=
  let (entry, r') := r.reportMark name (startTime.getD (s.now currentTimeStamp))
  (entry.startTime, r')

/-- The source's `measure` (fully-optional overload).  Start resolution:
explicit `startTime` first, else `startMark` lookup (throwing if absent), else
zero.  End resolution: explicit `endTime` first, else `duration` added to the
resolved start, else `endMark` lookup (throwing if absent), else `now()`.
The resolved pair is stored via `reportMeasure`, and the stored entry's
(startTime, duration) is returned. -/
def NativePerformance.measure (s : NativePerformance) (currentTimeStamp : HighResTimeStamp)
    (r : PerformanceEntryReporter) (name : String)
    (startTime endTime : Option HighResTimeStamp) (duration : Option HighResDuration)
    (startMark endMark : Option String) :
    Except String (HighResTimeStamp × HighResDuration) × PerformanceEntryReporter :=
  let startRes : Except String HighResTimeStamp :=
    match startTime with
    | some st => .ok st
    | none =>
      match startMark with
      | some m =>
        match r.getMarkTime m with
        | some t => .ok t
        | none => .error ("The mark '" ++ m ++ "' does not exist.")
      | none => .ok 0
  match startRes with
  | .error e => (.error e, r)
  | .ok startTimeValue =>
    let endRes : Except String HighResTimeStamp :=
      match endTime with
      | some et => .ok et
      | none =>
        match duration with
        | some d => .ok (startTimeValue + d)
        | none =>
          match endMark with
          | some m =>
            match r.getMarkTime m with
            | some t => .ok t
            | none => .error ("The mark '" ++ m ++ "' does not exist.")
          | none => .ok (s.now currentTimeStamp)
    match endRes with
    | .error e => (.error e, r)
    | .ok endTimeValue =>
      let (entry, r') := r.reportMeasure name startTimeValue endTimeValue
      (.ok (entry.startTime, entry.duration), r')

/-- The source's `measureWithResult` (pre-resolved start/end overload).
`startMark` / `endMark` lookups override the nominal times into
`startTimeValue` / `endTimeValue`; with no `endMark`, a given `duration`
yields end = resolved start + duration, and otherwise end < start recomputes
end as `now()`.  The source then calls `reportMeasure(name, startTime, endTime)`
with the RAW parameters, not the resolved `startTimeValue` / `endTimeValue`
(NativePerformance.cpp line 223), so the resolved values never reach the
stored entry; the embedding reproduces that faithfully. -/
def NativePerformance.measureWithResult (s : NativePerformance)
    (currentTimeStamp : HighResTimeStamp) (r : PerformanceEntryReporter) (name : String)
    (startTime endTime : HighResTimeStamp) (duration : Option HighResDuration)
    (startMark endMark : Option String) :
    Except String (HighResTimeStamp × HighResDuration) × PerformanceEntryReporter :=
  let startRes : Except String HighResTimeStamp :=
    match startMark with
    | some m =>
      match r.getMarkTime m with
      | some t => .ok t
      | none => .error ("The mark '" ++ m ++ "' does not exist.")
    | none => .ok startTime
  match startRes with
  | .error e => (.error e, r)
  | .ok startTimeValue =>
    let endRes : Except String HighResTimeStamp :=
      match endMark with
      | some m =>
        match r.getMarkTime m with
        | some t => .ok t
        | none => .error ("The mark '" ++ m ++ "' does not exist.")
      | none =>
        match duration with
        | some d => .ok (startTimeValue + d)
        | none => if endTime < startTimeValue then .ok (s.now currentTimeStamp) else .ok endTime
    match endRes with
    | .error e => (.error e, r)
    | .ok _endTimeValue =>
      let (entry, r') := r.reportMeasure name startTime endTime
      (.ok (entry.startTime, entry.duration), r')

/-- The source's `getEntries`: gather every timeline-available type's buffer,
stable-sort, convert to the bridge shape. -/
def NativePerformance.getEntries (r : PerformanceEntryReporter) :
    List NativePerformanceEntry :=
  let entries := ENTRY_TYPES_AVAILABLE_FROM_TIMELINE.foldl
    (fun acc entryType => r.getEntries acc entryType none) []
  toNativePerformanceEntries (sortEntries entries)

/-- The source's `getEntriesByName`: with an explicit type, gather that type's
name-filtered buffer only when the type is timeline-available; otherwise gather
the name-filtered Mark and Measure buffers; stable-sort and convert. -/
def NativePerformance.getEntriesByName (r : PerformanceEntryReporter) (entryName : String)
    (entryType : Option PerformanceEntryType) : List NativePerformanceEntry :=
  let entries : List PerformanceEntry :=
    match entryType with
    | some t =>
      if isAvailableFromTimeline t then r.getEntries [] t (some entryName) else []
    | none =>
      ENTRY_TYPES_AVAILABLE_FROM_TIMELINE.foldl
        (fun acc t => r.getEntries acc t (some entryName)) []
  toNativePerformanceEntries (sortEntries entries)

/-- The source's `getEntriesByType`: gather the type's buffer only when it is
timeline-available; stable-sort and convert. -/
def NativePerformance.getEntriesByType (r : PerformanceEntryReporter)
    (entryType : PerformanceEntryType) : List NativePerformanceEntry :=
  let entries : List PerformanceEntry :=
    if isAvailableFromTimeline entryType then r.getEntries [] entryType none else []
  toNativePerformanceEntries (sortEntries entries)

/-- Modelled from the spec: `PerformanceObserver` state (not in the sources at
hand) — the subscribed entry types, the single-mode duration threshold, the
bounded pending-records queue, and the dropped-entry counter. -/
structure PerformanceObserver where
  subscribedTypes : List PerformanceEntryType
  durationThreshold : HighResDuration
  pendingRecords : List PerformanceEntry
  queueCapacity : Nat
  droppedEntriesCount : Nat
deriving DecidableEq, Repr

/-- Modelled from the spec: appending to the observer's pending queue; at the
(implementation-defined) queue bound the entry is dropped and the observer's
dropped-entry counter increments. -/
def PerformanceObserver.enqueue (o : PerformanceObserver) (entry : PerformanceEntry) :
    PerformanceObserver :=
  if o.pendingRecords.length < o.queueCapacity then
    { o with pendingRecords := o.pendingRecords ++ [entry] }
  else
    { o with droppedEntriesCount := o.droppedEntriesCount + 1 }

/-- Modelled from the spec: "multiple"-mode `observe(entryTypes)` replaces the
subscription set; `durationThreshold` / `buffered` are not applicable and
ignored. -/
def PerformanceObserver.observeMultiple (o : PerformanceObserver)
    (entryTypes : List PerformanceEntryType) : PerformanceObserver :=
  { o with subscribedTypes := entryTypes }

/-- The per-subscription configuration passed to single-mode `observe`. -/
structure PerformanceObserverObserveSingleOptions where
  buffered : Bool
  durationThreshold : HighResDuration
deriving DecidableEq, Repr

/-- Modelled from the spec: "single"-mode `observe(type, {buffered,
durationThreshold})` subscribes to exactly that type with the given threshold;
with `buffered` true it immediately enqueues all currently retained entries of
that type from the reporter's buffer (one-time historical replay). -/
def PerformanceObserver.observeSingle (o : PerformanceObserver)
    (r : PerformanceEntryReporter) (entryType : PerformanceEntryType)
    (options : PerformanceObserverObserveSingleOptions) : PerformanceObserver :=
  let o' := { o with
    subscribedTypes := [entryType]
    durationThreshold := options.durationThreshold }
  if options.buffered then
    (r.getBuffer entryType).entries.foldl PerformanceObserver.enqueue o'
  else
    o'

/-- Modelled from the spec: how the observer registry routes one freshly
reported entry to one observer — delivered (enqueued) exactly when the
observer subscribes to the entry's type and the entry's duration reaches the
observer's duration threshold. -/
def PerformanceObserver.handleEntry (o : PerformanceObserver) (entry : PerformanceEntry) :
    PerformanceObserver :=
  if entry.entryType ∈ o.subscribedTypes ∧ o.durationThreshold ≤ entry.duration then
    o.enqueue entry
  else
    o

/-- Modelled from the spec: `takeRecords` atomically drains the pending queue. -/
def PerformanceObserver.takeRecords (o : PerformanceObserver) :
    List PerformanceEntry × PerformanceObserver :=
  (o.pendingRecords, { o with pendingRecords := [] })

/-- Modelled from the spec: `disconnect` unsubscribes from all types. -/
def PerformanceObserver.disconnect (o : PerformanceObserver) : PerformanceObserver :=
  { o with subscribedTypes := [] }

/-- The options object of the bridge-facing `observe`
(`NativePerformancePerformanceObserverObserveOptions` in the source). -/
structure NativePerformancePerformanceObserverObserveOptions where
  entryTypes : Option (List PerformanceEntryType)
  type : Option PerformanceEntryType
  buffered : Option Bool
  durationThreshold : Option HighResDuration
deriving DecidableEq, Repr

/-- The source's `observe`: a handle that does not resolve to an observer
(`tryGetObserver` returning null) is a no-op.  Otherwise, with `entryTypes`
present the observer observes in "multiple" mode; else, with `type` present it
observes in "single" mode with `buffered` defaulting to false and
`durationThreshold` defaulting to zero; with neither present nothing happens. -/
def NativePerformance.observe (r : PerformanceEntryReporter)
    (observer : Option PerformanceObserver)
    (options : NativePerformancePerformanceObserverObserveOptions) :
    Option PerformanceObserver :=
  match observer with
  | none => none
  | some o =>
    let durationThreshold := options.durationThreshold.getD 0
    match options.entryTypes with
    | some rawTypes => some (o.observeMultiple rawTypes)
    | none =>
      let buffered := options.buffered.getD false
      match options.type with
      | some t =>
        some (o.observeSingle r t
          { buffered := buffered, durationThreshold := durationThreshold })
      | none => some o

/-- The source's `disconnect`: no-op on an unresolved handle. -/
def NativePerformance.disconnect (observer : Option PerformanceObserver) :
    Option PerformanceObserver :=
  match observer with
  | none => none
  | some o => some o.disconnect

/-- The source's `takeRecords`: empty result on an unresolved handle; otherwise
drain the observer's queue, optionally stable-sorting, and convert. -/
def NativePerformance.takeRecords (observer : Option PerformanceObserver) (sort : Bool) :
    List NativePerformanceEntry × Option PerformanceObserver :=
  match observer with
  | none => ([], none)
  | some o =>
    let (records, o') := o.takeRecords
    (toNativePerformanceEntries (if sort then sortEntries records else records), some o')

/-- The source's `getDroppedEntriesCount`: zero on an unresolved handle. -/
def NativePerformance.getDroppedEntriesCount (observer : Option PerformanceObserver) : Nat :=
  match observer with
  | none => 0
  | some o => o.droppedEntriesCount

/-- Modelled from the spec: the per-type buffer capacity is an
implementation-defined constant; fixed here for the concrete example states. -/
def DEFAULT_BUFFER_SIZE : Nat := 1024

/-- An empty entry buffer at the default capacity. -/
def emptyBuffer : PerformanceEntryBuffer :=
  { capacity := DEFAULT_BUFFER_SIZE, entries := [], droppedEntriesCount := 0 }

/-- The reporter's initial (empty) state. -/
def initialReporter : PerformanceEntryReporter :=
  { markBuffer := emptyBuffer
    measureBuffer := emptyBuffer
    eventBuffer := emptyBuffer
    resourceBuffer := emptyBuffer
    markTimes := []
    eventCounts := [] }

/-- The module state with no forced timestamp. -/
def initialNativePerformance : NativePerformance :=
  { forcedCurrentTimeStamp := none }

/-- Example state: the reporter after `mark("x", t = 10)`. -/
def reporterAfterMarkX : PerformanceEntryReporter :=
  (initialNativePerformance.markWithResult 0 initialReporter "x" (some 10)).2

/-- Example entry: the mark `A` at t = 5. -/
def markA5 : PerformanceEntry := .mark { name := "A", startTime := 5, duration := 0 }

/-- Example entry: the mark `B` at t = 3. -/
def markB3 : PerformanceEntry := .mark { name := "B", startTime := 3, duration := 0 }

/-- Example entry: the mark `C` at t = 3. -/
def markC3 : PerformanceEntry := .mark { name := "C", startTime := 3, duration := 0 }

/-- Example state: the reporter after recording marks A@5, B@3, C@3 in that
order. -/
def reporterABC : PerformanceEntryReporter :=
  (((initialReporter.reportMark "A" 5).2.reportMark "B" 3).2.reportMark "C" 3).2

/-- Example entry: one EventTiming entry. -/
def eventEntryExample : PerformanceEntry :=
  .event { name := "ev", startTime := 1, duration := 2, processingStart := 1,
           processingEnd := 2, interactionId := 0 }

/-- Example state: the reporter holding one EventTiming entry. -/
def reporterWithEvent : PerformanceEntryReporter :=
  { initialReporter with eventBuffer := initialReporter.eventBuffer.insert eventEntryExample }

/-- Example observer: fresh observer state with no subscriptions. -/
def observerBase : PerformanceObserver :=
  { subscribedTypes := [], durationThreshold := 0, pendingRecords := [],
    queueCapacity := 1024, droppedEntriesCount := 0 }

/-- Example options: single-mode observe of MEASURE with every optional field
omitted. -/
def defaultMeasureObserveOptions : NativePerformancePerformanceObserverObserveOptions :=
  { entryTypes := none, type := some .measure, buffered := none, durationThreshold := none }

/-- Example options: observe with neither `entryTypes` nor `type`. -/
def emptyObserveOptions : NativePerformancePerformanceObserverObserveOptions :=
  { entryTypes := none, type := none, buffered := none, durationThreshold := none }

/-- Example observer: `observerBase` after the all-defaults single-mode observe
of MEASURE. -/
def observerDefaultMeasure : PerformanceObserver :=
  (NativePerformance.observe initialReporter (some observerBase)
      defaultMeasureObserveOptions).getD observerBase

/-- Example entry: the Measure entry produced by `reportMeasure("neg", 10, 0)`,
whose duration is the negative value −10. -/
def negativeDurationMeasure : PerformanceEntry :=
  (initialReporter.reportMeasure "neg" 10 0).1

/-- Example entry: a Measure entry of positive duration. -/
def positiveDurationMeasure : PerformanceEntry :=
  (initialReporter.reportMeasure "pos" 0 10).1

/-- A reporter state is well-typed when each per-type buffer holds only entries
of its own kind (every report operation preserves this). -/
def PerformanceEntryReporter.WellTyped (r : PerformanceEntryReporter) : Prop :=
  (∀ e ∈ r.markBuffer.entries, e.entryType = .mark) ∧
  (∀ e ∈ r.measureBuffer.entries, e.entryType = .measure) ∧
  (∀ e ∈ r.eventBuffer.entries, e.entryType = .event) ∧
  (∀ e ∈ r.resourceBuffer.entries, e.entryType = .resource)

/-! Shared helper lemmas. -/

/-- Sorting permutes and so preserves membership. -/
theorem mem_sortEntries {e : PerformanceEntry} {l : List PerformanceEntry} :
    e ∈ sortEntries l ↔ e ∈ l :=
  (List.perm_insertionSort PerformanceEntrySorter l).mem_iff

/-- Conversion to the bridge shape keeps the entry type. -/
theorem toNativePerformanceEntry_entryType (e : PerformanceEntry) :
    (toNativePerformanceEntry e).entryType = e.entryType := by
  cases e <;> rfl

/-- Any member of a converted, sorted query result has the entry type of some
gathered entry. -/
theorem mem_query_entryType {gathered : List PerformanceEntry} {ne : NativePerformanceEntry}
    (hg : ∀ e ∈ gathered, e.entryType = .mark ∨ e.entryType = .measure)
    (hne : ne ∈ toNativePerformanceEntries (sortEntries gathered)) :
    ne.entryType = .mark ∨ ne.entryType = .measure := by
  obtain ⟨e, he, rfl⟩ := List.mem_map.mp hne
  rw [toNativePerformanceEntry_entryType]
  exact hg e (mem_sortEntries.mp he)

/-- C1: the claim fails on the code. `measureWithResult` resolves
`startTimeValue` from the `startMark` lookup (here the mark `x` at t = 10) and
would resolve the end from it, but then stores and returns the Measure entry
built from the RAW `startTime` / `endTime` parameters (0 and 20): with
`startMark = "x"` present the stored and returned start is 0, not the looked-up
10, so the overrides never reach the Reporter entry or the returned pair. -/
theorem measureWithResult_stores_raw_times :
    reporterAfterMarkX.getMarkTime "x" = some 10 ∧
    (initialNativePerformance.measureWithResult 99 reporterAfterMarkX "m" 0 20 none
        (some "x") none).1 = .ok (0, 20) ∧
    (initialNativePerformance.measureWithResult 99 reporterAfterMarkX "m" 0 20 none
        (some "x") none).2.measureBuffer.entries =
      [.measure { name := "m", startTime := 0, duration := 20 }] := by
  refine ⟨rfl, rfl, by decide⟩

/-- C7: every observer-handle operation invoked on a handle that does not
resolve to attached observer state (`tryGetObserver` / the native-state cast
returning null) raises no error and returns its neutral default: `observe` and
`disconnect` leave everything unchanged, `takeRecords` returns the empty
sequence, `getDroppedEntriesCount` returns 0. -/
theorem foreign_handle_operations_are_noops (r : PerformanceEntryReporter)
    (options : NativePerformancePerformanceObserverObserveOptions) (sort : Bool) :
    NativePerformance.observe r none options = none ∧
    NativePerformance.disconnect none = none ∧
    NativePerformance.takeRecords none sort = ([], none) ∧
    NativePerformance.getDroppedEntriesCount none = 0 :=
  ⟨rfl, rfl, rfl, rfl⟩

/-- C8: `observe` on a valid handle whose options carry neither `entryTypes`
nor a single `type` is a silent no-op: the observer state is returned
unchanged. -/
theorem observe_without_type_is_noop (r : PerformanceEntryReporter)
    (o : PerformanceObserver)
    (options : NativePerformancePerformanceObserverObserveOptions)
    (hTypes : options.entryTypes = none) (hType : options.type = none) :
    NativePerformance.observe r (some o) options = some o := by
  simp [NativePerformance.observe, hTypes, hType]

/-- Witness for C8 at a concrete input: the all-empty options object. -/
theorem observe_without_type_is_noop_witness :
    emptyObserveOptions.entryTypes = none ∧ emptyObserveOptions.type = none ∧
    NativePerformance.observe initialReporter (some observerBase) emptyObserveOptions =
      some observerBase :=
  ⟨rfl, rfl, observe_without_type_is_noop initialReporter observerBase
    emptyObserveOptions rfl rfl⟩

/-- C9: after `setCurrentTimeStampForTesting(ts)` every call to `now()`
returns `ts`, short-circuiting the external clock; with no forced timestamp
set, `now()` returns the external clock's current value. -/
theorem now_respects_forced_timestamp (s : NativePerformance)
    (ts currentTimeStamp : HighResTimeStamp) :
    (s.setCurrentTimeStampForTesting ts).now currentTimeStamp = ts ∧
    (s.forcedCurrentTimeStamp = none → s.now currentTimeStamp = currentTimeStamp) := by
  constructor
  · rfl
  · intro h
    simp [NativePerformance.now, h]

/-- Witness for C9 at a concrete input: forcing t = 42 against an external
clock reading 7. -/
theorem now_respects_forced_timestamp_witness :
    (initialNativePerformance.setCurrentTimeStampForTesting 42).now 7 = 42 ∧
    initialNativePerformance.forcedCurrentTimeStamp = none ∧
    initialNativePerformance.now 7 = 7 :=
  ⟨(now_respects_forced_timestamp initialNativePerformance 42 7).1, rfl,
    (now_respects_forced_timestamp initialNativePerformance 42 7).2 rfl⟩

/-- C2: `measure` resolves the start timestamp in this priority order: an
explicit `startTime` wins (even when `startMark` is also given); otherwise a
given `startMark` is looked up in the mark-name index and its stored timestamp
used, the call failing with the mark-not-found error when absent; otherwise the
start defaults to timestamp zero.  The stored entry's startTime (the first
component of the returned pair) witnesses the resolved value. -/
theorem measure_start_resolution_priority (s : NativePerformance)
    (currentTimeStamp : HighResTimeStamp) (r : PerformanceEntryReporter) (name : String)
    (startTime endTime : Option HighResTimeStamp) (duration : Option HighResDuration)
    (startMark endMark : Option String) :
    (∀ st res r', startTime = some st →
      s.measure currentTimeStamp r name startTime endTime duration startMark endMark =
        (.ok res, r') →
      res.1 = st) ∧
    (∀ m t res r', startTime = none → startMark = some m → r.getMarkTime m = some t →
      s.measure currentTimeStamp r name startTime endTime duration startMark endMark =
        (.ok res, r') →
      res.1 = t) ∧
    (∀ m, startTime = none → startMark = some m → r.getMarkTime m = none →
      (s.measure currentTimeStamp r name startTime endTime duration startMark endMark).1 =
        .error ("The mark '" ++ m ++ "' does not exist.")) ∧
    (∀ res r', startTime = none → startMark = none →
      s.measure currentTimeStamp r name startTime endTime duration startMark endMark =
        (.ok res, r') →
      res.1 = 0) := by
  refine ⟨?_, ?_, ?_, ?_⟩
  · rintro st res r' rfl h
    simp only [NativePerformance.measure] at h
    split at h <;>
      first
        | (simp_all; done)
        | (simp only [PerformanceEntryReporter.reportMeasure, PerformanceEntry.startTime,
            PerformanceEntry.duration, Prod.mk.injEq, Except.ok.injEq] at h
           obtain ⟨⟨h1, h2⟩, -⟩ := h
           simp_all
           try omega)
  · rintro m t res r' rfl rfl hm h
    simp only [NativePerformance.measure, hm] at h
    split at h <;>
      first
        | (simp_all; done)
        | (simp only [PerformanceEntryReporter.reportMeasure, PerformanceEntry.startTime,
            PerformanceEntry.duration, Prod.mk.injEq, Except.ok.injEq] at h
           obtain ⟨⟨h1, h2⟩, -⟩ := h
           simp_all
           try omega)
  · rintro m rfl rfl hm
    simp [NativePerformance.measure, hm]
  · rintro res r' rfl rfl h
    simp only [NativePerformance.measure] at h
    split at h <;>
      first
        | (simp_all; done)
        | (simp only [PerformanceEntryReporter.reportMeasure, PerformanceEntry.startTime,
            PerformanceEntry.duration, Prod.mk.injEq, Except.ok.injEq] at h
           obtain ⟨⟨h1, h2⟩, -⟩ := h
           simp_all
           try omega)

/-- Witness for C2 at the spec's round-trip example: `mark("x", t = 10)` then
`measure("m", startMark = "x", endTime = 20)` yields the entry with
startTime 10 and duration 10. -/
theorem measure_start_resolution_priority_witness :
    reporterAfterMarkX.getMarkTime "x" = some 10 ∧
    (initialNativePerformance.measure 99 reporterAfterMarkX "m" none (some 20) none
        (some "x") none).1 = .ok (10, 10) ∧
    (((10 : HighResTimeStamp), (10 : HighResDuration))).1 = 10 := by
  refine ⟨rfl, rfl, ?_⟩
  exact (measure_start_resolution_priority initialNativePerformance 99 reporterAfterMarkX
      "m" none (some 20) none (some "x") none).2.1 "x" 10 (10, 10)
      (initialNativePerformance.measure 99 reporterAfterMarkX "m" none (some 20) none
        (some "x") none).2 rfl rfl rfl (by rfl)

/-- C3: `measure` resolves the end timestamp in this priority order: an
explicit `endTime` wins; otherwise a given `duration` makes end = resolved
start + duration; otherwise a given `endMark` is looked up in the mark-name
index (the call cannot succeed when absent); otherwise end = `now()` (the
current-time source, respecting the forced-timestamp hook through
`NativePerformance.now`).  The stored entry's duration (second component of the
returned pair) equals the resolved end minus the resolved start. -/
theorem measure_end_resolution_priority (s : NativePerformance)
    (currentTimeStamp : HighResTimeStamp) (r : PerformanceEntryReporter) (name : String)
    (startTime endTime : Option HighResTimeStamp) (duration : Option HighResDuration)
    (startMark endMark : Option String) :
    (∀ et res r', endTime = some et →
      s.measure currentTimeStamp r name startTime endTime duration startMark endMark =
        (.ok res, r') →
      res.2 = et - res.1) ∧
    (∀ d res r', endTime = none → duration = some d →
      s.measure currentTimeStamp r name startTime endTime duration startMark endMark =
        (.ok res, r') →
      res.2 = d) ∧
    (∀ m t res r', endTime = none → duration = none → endMark = some m →
      r.getMarkTime m = some t →
      s.measure currentTimeStamp r name startTime endTime duration startMark endMark =
        (.ok res, r') →
      res.2 = t - res.1) ∧
    (∀ m res r', endTime = none → duration = none → endMark = some m →
      r.getMarkTime m = none →
      s.measure currentTimeStamp r name startTime endTime duration startMark endMark ≠
        (.ok res, r')) ∧
    (∀ res r', endTime = none → duration = none → endMark = none →
      s.measure currentTimeStamp r name startTime endTime duration startMark endMark =
        (.ok res, r') →
      res.2 = s.now currentTimeStamp - res.1) := by
  refine ⟨?_, ?_, ?_, ?_, ?_⟩
  · rintro et res r' rfl h
    simp only [NativePerformance.measure] at h
    split at h <;>
      first
        | (simp_all; done)
        | (simp only [PerformanceEntryReporter.reportMeasure, PerformanceEntry.startTime,
            PerformanceEntry.duration, Prod.mk.injEq, Except.ok.injEq] at h
           obtain ⟨⟨h1, h2⟩, -⟩ := h
           simp_all
           try omega)
  · rintro d res r' rfl rfl h
    simp only [NativePerformance.measure] at h
    split at h <;>
      first
        | (simp_all; done)
        | (simp only [PerformanceEntryReporter.reportMeasure, PerformanceEntry.startTime,
            PerformanceEntry.duration, Prod.mk.injEq, Except.ok.injEq] at h
           obtain ⟨⟨h1, h2⟩, -⟩ := h
           simp_all
           try omega)
  · rintro m t res r' rfl rfl rfl hm h
    simp only [NativePerformance.measure, hm] at h
    split at h <;>
      first
        | (simp_all; done)
        | (simp only [PerformanceEntryReporter.reportMeasure, PerformanceEntry.startTime,
            PerformanceEntry.duration, Prod.mk.injEq, Except.ok.injEq] at h
           obtain ⟨⟨h1, h2⟩, -⟩ := h
           simp_all
           try omega)
  · rintro m res r' rfl rfl rfl hm h
    simp only [NativePerformance.measure, hm] at h
    split at h <;> simp_all
  · rintro res r' rfl rfl rfl h
    simp only [NativePerformance.measure] at h
    split at h <;>
      first
        | (simp_all; done)
        | (simp only [PerformanceEntryReporter.reportMeasure, PerformanceEntry.startTime,
            PerformanceEntry.duration, Prod.mk.injEq, Except.ok.injEq] at h
           obtain ⟨⟨h1, h2⟩, -⟩ := h
           simp_all
           try omega)

/-- Witness for C3 at a concrete input: `measure("m", startTime = 5,
duration = 7)` yields duration 7 (end = start + duration). -/
theorem measure_end_resolution_priority_witness :
    (initialNativePerformance.measure 99 initialReporter "m" (some 5) none (some 7)
        none none).1 = .ok (5, 7) ∧
    (((5 : HighResTimeStamp), (7 : HighResDuration))).2 = 7 := by
  refine ⟨rfl, ?_⟩
  exact (measure_end_resolution_priority initialNativePerformance 99 initialReporter
      "m" (some 5) none (some 7) none none).2.1 7 (5, 7)
      (initialNativePerformance.measure 99 initialReporter "m" (some 5) none (some 7)
        none none).2 rfl rfl (by rfl)

/-- Every error outcome of `measure` leaves the reporter unchanged, and its
message is the mark-not-found message of a provided mark that was consulted
and found absent. -/
theorem measure_error_characterization (s : NativePerformance)
    (currentTimeStamp : HighResTimeStamp) (r : PerformanceEntryReporter) (name : String)
    (startTime endTime : Option HighResTimeStamp) (duration : Option HighResDuration)
    (startMark endMark : Option String) (e : String) (r2 : PerformanceEntryReporter)
    (h : s.measure currentTimeStamp r name startTime endTime duration startMark endMark =
      (.error e, r2)) :
    r2 = r ∧
    ((startTime = none ∧ ∃ m, startMark = some m ∧ r.getMarkTime m = none ∧
        e = "The mark '" ++ m ++ "' does not exist.") ∨
     (endTime = none ∧ duration = none ∧ ∃ m, endMark = some m ∧ r.getMarkTime m = none ∧
        e = "The mark '" ++ m ++ "' does not exist.")) := by
  simp only [NativePerformance.measure] at h
  split at h
  · rename_i e0 heq
    simp only [Prod.mk.injEq, Except.error.injEq] at h
    obtain ⟨rfl, rfl⟩ := h
    refine ⟨rfl, ?_⟩
    rcases startTime with _ | st
    · rcases startMark with _ | sm
      · simp at heq
      · rcases hsm : r.getMarkTime sm with _ | t
        · simp only [hsm, Except.error.injEq] at heq
          exact .inl ⟨rfl, sm, rfl, hsm, heq.symm⟩
        · simp [hsm] at heq
    · simp at heq
  · rename_i stv heq
    split at h
    · rename_i e0 heq2
      simp only [Prod.mk.injEq, Except.error.injEq] at h
      obtain ⟨rfl, rfl⟩ := h
      refine ⟨rfl, ?_⟩
      rcases endTime with _ | et
      · rcases duration with _ | d
        · rcases endMark with _ | em
          · simp at heq2
          · rcases hem : r.getMarkTime em with _ | t
            · simp only [hem, Except.error.injEq] at heq2
              exact .inr ⟨rfl, rfl, em, rfl, hem, heq2.symm⟩
            · simp [hem] at heq2
        · simp at heq2
      · simp at heq2
    · simp at h

/-- Every error outcome of `measureWithResult` leaves the reporter unchanged,
and its message is the mark-not-found message of a provided mark found absent. -/
theorem measureWithResult_error_characterization (s : NativePerformance)
    (currentTimeStamp : HighResTimeStamp) (r : PerformanceEntryReporter) (name : String)
    (startTime endTime : HighResTimeStamp) (duration : Option HighResDuration)
    (startMark endMark : Option String) (e : String) (r2 : PerformanceEntryReporter)
    (h : s.measureWithResult currentTimeStamp r name startTime endTime duration
        startMark endMark = (.error e, r2)) :
    r2 = r ∧
    ((∃ m, startMark = some m ∧ r.getMarkTime m = none ∧
        e = "The mark '" ++ m ++ "' does not exist.") ∨
     (∃ m, endMark = some m ∧ r.getMarkTime m = none ∧
        e = "The mark '" ++ m ++ "' does not exist.")) := by
  simp only [NativePerformance.measureWithResult] at h
  split at h
  · rename_i e0 heq
    simp only [Prod.mk.injEq, Except.error.injEq] at h
    obtain ⟨rfl, rfl⟩ := h
    refine ⟨rfl, ?_⟩
    rcases startMark with _ | sm
    · simp at heq
    · rcases hsm : r.getMarkTime sm with _ | t
      · simp only [hsm, Except.error.injEq] at heq
        exact .inl ⟨sm, rfl, hsm, heq.symm⟩
      · simp [hsm] at heq
  · rename_i stv heq
    split at h
    · rename_i e0 heq2
      simp only [Prod.mk.injEq, Except.error.injEq] at h
      obtain ⟨rfl, rfl⟩ := h
      refine ⟨rfl, ?_⟩
      rcases endMark with _ | em
      · rcases duration with _ | d
        · simp [ite_eq_iff] at heq2
        · simp at heq2
      · rcases hem : r.getMarkTime em with _ | t
        · simp only [hem, Except.error.injEq] at heq2
          exact .inr ⟨em, rfl, hem, heq2.symm⟩
        · simp [hem] at heq2
    · simp at h

/-- C4: a measure call (either overload) fails exactly when a consulted
`startMark` / `endMark` is absent from the mark-name index (for the
fully-optional overload a mark is consulted per the resolution priority:
`startMark` only without `startTime`, `endMark` only without `endTime` and
`duration`; the pre-resolved overload consults every provided mark); every
failure carries the message naming the offending mark, leaves the reporter
unchanged (no Measure entry recorded), and no other failure exists. -/
theorem measure_mark_not_found_failures (s : NativePerformance)
    (currentTimeStamp : HighResTimeStamp) (r : PerformanceEntryReporter) (name : String)
    (startTime endTime : Option HighResTimeStamp) (duration : Option HighResDuration)
    (startMark endMark : Option String) (startTimeRaw endTimeRaw : HighResTimeStamp) :
    ((∃ e, (s.measure currentTimeStamp r name startTime endTime duration startMark
        endMark).1 = .error e) ↔
      ((startTime = none ∧ ∃ m, startMark = some m ∧ r.getMarkTime m = none) ∨
       (endTime = none ∧ duration = none ∧ ∃ m, endMark = some m ∧
         r.getMarkTime m = none))) ∧
    (∀ e, (s.measure currentTimeStamp r name startTime endTime duration startMark
        endMark).1 = .error e →
      (s.measure currentTimeStamp r name startTime endTime duration startMark endMark).2
        = r ∧
      ∃ m, (startMark = some m ∨ endMark = some m) ∧ r.getMarkTime m = none ∧
        e = "The mark '" ++ m ++ "' does not exist.") ∧
    ((∃ e, (s.measureWithResult currentTimeStamp r name startTimeRaw endTimeRaw duration
        startMark endMark).1 = .error e) ↔
      ((∃ m, startMark = some m ∧ r.getMarkTime m = none) ∨
       (∃ m, endMark = some m ∧ r.getMarkTime m = none))) ∧
    (∀ e, (s.measureWithResult currentTimeStamp r name startTimeRaw endTimeRaw duration
        startMark endMark).1 = .error e →
      (s.measureWithResult currentTimeStamp r name startTimeRaw endTimeRaw duration
        startMark endMark).2 = r ∧
      ∃ m, (startMark = some m ∨ endMark = some m) ∧ r.getMarkTime m = none ∧
        e = "The mark '" ++ m ++ "' does not exist.") := by
  refine ⟨⟨?_, ?_⟩, ?_, ⟨?_, ?_⟩, ?_⟩
  · rintro ⟨e, he⟩
    obtain ⟨-, hcase⟩ := measure_error_characterization s currentTimeStamp r name
      startTime endTime duration startMark endMark e _ (Prod.ext_iff.mpr ⟨he, rfl⟩)
    rcases hcase with ⟨hst, m, hm, hlook, -⟩ | ⟨het, hd, m, hm, hlook, -⟩
    · exact .inl ⟨hst, m, hm, hlook⟩
    · exact .inr ⟨het, hd, m, hm, hlook⟩
  · rintro (⟨rfl, m, rfl, hlook⟩ | ⟨rfl, rfl, m, rfl, hlook⟩)
    · refine ⟨"The mark '" ++ m ++ "' does not exist.", ?_⟩
      simp [NativePerformance.measure, hlook]
    · have hne : ∀ res r2,
          s.measure currentTimeStamp r name startTime none none startMark (some m) ≠
            (.ok res, r2) := by
        intro res r2 h
        simp only [NativePerformance.measure, hlook] at h
        split at h <;> simp_all
      rcases hres : (s.measure currentTimeStamp r name startTime none none startMark
          (some m)).1 with e | res
      · exact ⟨e, rfl⟩
      · exact (hne res _ (Prod.ext_iff.mpr ⟨hres, rfl⟩)).elim
  · intro e he
    obtain ⟨h2, hcase⟩ := measure_error_characterization s currentTimeStamp r name
      startTime endTime duration startMark endMark e _ (Prod.ext_iff.mpr ⟨he, rfl⟩)
    refine ⟨h2, ?_⟩
    rcases hcase with ⟨-, m, hm, hlook, he'⟩ | ⟨-, -, m, hm, hlook, he'⟩
    · exact ⟨m, .inl hm, hlook, he'⟩
    · exact ⟨m, .inr hm, hlook, he'⟩
  · rintro ⟨e, he⟩
    obtain ⟨-, hcase⟩ := measureWithResult_error_characterization s currentTimeStamp r
      name startTimeRaw endTimeRaw duration startMark endMark e _
      (Prod.ext_iff.mpr ⟨he, rfl⟩)
    rcases hcase with ⟨m, hm, hlook, -⟩ | ⟨m, hm, hlook, -⟩
    · exact .inl ⟨m, hm, hlook⟩
    · exact .inr ⟨m, hm, hlook⟩
  · rintro (⟨m, rfl, hlook⟩ | ⟨m, rfl, hlook⟩)
    · refine ⟨"The mark '" ++ m ++ "' does not exist.", ?_⟩
      simp [NativePerformance.measureWithResult, hlook]
    · have hne : ∀ res r2,
          s.measureWithResult currentTimeStamp r name startTimeRaw endTimeRaw duration
            startMark (some m) ≠ (.ok res, r2) := by
        intro res r2 h
        simp only [NativePerformance.measureWithResult, hlook] at h
        split at h <;> simp_all
      rcases hres : (s.measureWithResult currentTimeStamp r name startTimeRaw endTimeRaw
          duration startMark (some m)).1 with e | res
      · exact ⟨e, rfl⟩
      · exact (hne res _ (Prod.ext_iff.mpr ⟨hres, rfl⟩)).elim
  · intro e he
    obtain ⟨h2, hcase⟩ := measureWithResult_error_characterization s currentTimeStamp r
      name startTimeRaw endTimeRaw duration startMark endMark e _
      (Prod.ext_iff.mpr ⟨he, rfl⟩)
    refine ⟨h2, ?_⟩
    rcases hcase with ⟨m, hm, hlook, he'⟩ | ⟨m, hm, hlook, he'⟩
    · exact ⟨m, .inl hm, hlook, he'⟩
    · exact ⟨m, .inr hm, hlook, he'⟩

/-- Witness for C4 at the spec's example: `measure("m", startMark = "nope")` on
an empty reporter fails naming "nope" and records nothing. -/
theorem measure_mark_not_found_failures_witness :
    (initialNativePerformance.measure 0 initialReporter "m" none none none (some "nope")
        none).1 = .error ("The mark 'nope' does not exist.") ∧
    (initialNativePerformance.measure 0 initialReporter "m" none none none (some "nope")
        none).2 = initialReporter := by
  refine ⟨rfl, ?_⟩
  exact ((measure_mark_not_found_failures initialNativePerformance 0 initialReporter "m"
      none none none (some "nope") none 0 0).2.1
      ("The mark '" ++ "nope" ++ "' does not exist.") rfl).1

/-- C5: timeline queries are restricted to Mark and Measure entries:
`getEntries` aggregates exactly the Mark and Measure buffers;
`getEntriesByType` returns the empty sequence for every non-timeline type;
`getEntriesByName` with an explicit non-timeline type returns the empty
sequence; hence over well-typed reporter states no EventTiming or
ResourceTiming entry ever appears in a timeline query result. -/
theorem timeline_queries_restricted (r : PerformanceEntryReporter) (entryName : String) :
    (NativePerformance.getEntries r =
      toNativePerformanceEntries
        (sortEntries (r.markBuffer.entries ++ r.measureBuffer.entries))) ∧
    (∀ t, isAvailableFromTimeline t = false →
      NativePerformance.getEntriesByType r t = []) ∧
    (∀ t, isAvailableFromTimeline t = false →
      NativePerformance.getEntriesByName r entryName (some t) = []) ∧
    (r.WellTyped → ∀ ne t ot,
      (ne ∈ NativePerformance.getEntries r ∨
       ne ∈ NativePerformance.getEntriesByType r t ∨
       ne ∈ NativePerformance.getEntriesByName r entryName ot) →
      (ne.entryType = .mark ∨ ne.entryType = .measure)) := by
  have hget : NativePerformance.getEntries r =
      toNativePerformanceEntries
        (sortEntries (r.markBuffer.entries ++ r.measureBuffer.entries)) := by
    simp [NativePerformance.getEntries, ENTRY_TYPES_AVAILABLE_FROM_TIMELINE,
      PerformanceEntryReporter.getEntries, PerformanceEntryReporter.getBuffer]
  refine ⟨hget, ?_, ?_, ?_⟩
  · intro t ht
    simp [NativePerformance.getEntriesByType, ht, sortEntries, toNativePerformanceEntries]
  · intro t ht
    simp [NativePerformance.getEntriesByName, ht, sortEntries, toNativePerformanceEntries]
  · rintro ⟨hmk, hms, -, -⟩ ne t ot hmem
    rcases hmem with hmem | hmem | hmem
    · rw [hget] at hmem
      refine mem_query_entryType ?_ hmem
      intro e he
      rcases List.mem_append.mp he with he | he
      · exact .inl (hmk e he)
      · exact .inr (hms e he)
    · by_cases ht : isAvailableFromTimeline t
      · have : NativePerformance.getEntriesByType r t =
            toNativePerformanceEntries (sortEntries ((r.getBuffer t).entries)) := by
          simp [NativePerformance.getEntriesByType, ht,
            PerformanceEntryReporter.getEntries]
        rw [this] at hmem
        refine mem_query_entryType ?_ hmem
        intro e he
        rcases t with _ | _ | _ | _
        · exact .inl (hmk e he)
        · exact .inr (hms e he)
        · simp [isAvailableFromTimeline] at ht
        · simp [isAvailableFromTimeline] at ht
      · simp [NativePerformance.getEntriesByType, eq_false_of_ne_true ht,
          sortEntries, toNativePerformanceEntries] at hmem
    · rcases ot with _ | t2
      · have : NativePerformance.getEntriesByName r entryName none =
            toNativePerformanceEntries (sortEntries
              ((r.markBuffer.entries.filter (fun e => e.name == entryName)) ++
               (r.measureBuffer.entries.filter (fun e => e.name == entryName)))) := by
          simp [NativePerformance.getEntriesByName, ENTRY_TYPES_AVAILABLE_FROM_TIMELINE,
            PerformanceEntryReporter.getEntries, PerformanceEntryReporter.getBuffer]
        rw [this] at hmem
        refine mem_query_entryType ?_ hmem
        intro e he
        rcases List.mem_append.mp he with he | he
        · exact .inl (hmk e (List.mem_of_mem_filter he))
        · exact .inr (hms e (List.mem_of_mem_filter he))
      · by_cases ht : isAvailableFromTimeline t2
        · have : NativePerformance.getEntriesByName r entryName (some t2) =
              toNativePerformanceEntries (sortEntries
                ((r.getBuffer t2).entries.filter (fun e => e.name == entryName))) := by
            simp [NativePerformance.getEntriesByName, ht,
              PerformanceEntryReporter.getEntries]
          rw [this] at hmem
          refine mem_query_entryType ?_ hmem
          intro e he
          rcases t2 with _ | _ | _ | _
          · exact .inl (hmk e (List.mem_of_mem_filter he))
          · exact .inr (hms e (List.mem_of_mem_filter he))
          · simp [isAvailableFromTimeline] at ht
          · simp [isAvailableFromTimeline] at ht
        · simp [NativePerformance.getEntriesByName, eq_false_of_ne_true ht,
            sortEntries, toNativePerformanceEntries] at hmem

/-- Witness for C5 at a concrete input: a stored EventTiming entry is invisible
to all timeline queries, while the mark-only state yields only mark-typed
results. -/
theorem timeline_queries_restricted_witness :
    isAvailableFromTimeline .event = false ∧
    NativePerformance.getEntriesByType reporterWithEvent .event = [] ∧
    NativePerformance.getEntries reporterWithEvent = [] ∧
    ((toNativePerformanceEntry markB3).entryType = .mark ∨
     (toNativePerformanceEntry markB3).entryType = .measure) := by
  refine ⟨by decide, ?_, by decide, ?_⟩
  · exact (timeline_queries_restricted reporterWithEvent "").2.1 .event (by decide)
  · refine (timeline_queries_restricted reporterABC "B").2.2.2
      ⟨by decide, by decide, by decide, by decide⟩
      (toNativePerformanceEntry markB3) .mark none (.inl ?_)
    decide

/-- C6: every multi-entry sequence returned by `getEntries`,
`getEntriesByName`, `getEntriesByType` and `takeRecords` with sort requested is
the stable startTime-ascending sort of the gathered entries: a permutation of
them, pairwise ordered by startTime, with any startTime-ordered sublist (in
particular any run of equal startTimes, in insertion order) preserved. -/
theorem multi_entry_results_sorted_stable (r : PerformanceEntryReporter)
    (entryName : String) (t : PerformanceEntryType) (o : PerformanceObserver)
    (l c : List PerformanceEntry) :
    (sortEntries l).Perm l ∧
    (sortEntries l).Pairwise PerformanceEntrySorter ∧
    (c.Pairwise PerformanceEntrySorter → c.Sublist l → c.Sublist (sortEntries l)) ∧
    NativePerformance.getEntries r =
      toNativePerformanceEntries
        (sortEntries (r.markBuffer.entries ++ r.measureBuffer.entries)) ∧
    NativePerformance.getEntriesByType r t =
      toNativePerformanceEntries
        (sortEntries (if isAvailableFromTimeline t then (r.getBuffer t).entries else [])) ∧
    NativePerformance.getEntriesByName r entryName none =
      toNativePerformanceEntries
        (sortEntries (r.markBuffer.entries.filter (fun e => e.name == entryName) ++
          r.measureBuffer.entries.filter (fun e => e.name == entryName))) ∧
    NativePerformance.getEntriesByName r entryName (some t) =
      toNativePerformanceEntries
        (sortEntries (if isAvailableFromTimeline t then
          (r.getBuffer t).entries.filter (fun e => e.name == entryName) else [])) ∧
    (NativePerformance.takeRecords (some o) true).1 =
      toNativePerformanceEntries (sortEntries o.pendingRecords) := by
  refine ⟨List.perm_insertionSort _ l, List.sorted_insertionSort _ l,
    fun hc hs => List.sublist_insertionSort hc hs, ?_, ?_, ?_, ?_, rfl⟩
  · simp [NativePerformance.getEntries, ENTRY_TYPES_AVAILABLE_FROM_TIMELINE,
      PerformanceEntryReporter.getEntries, PerformanceEntryReporter.getBuffer]
  · by_cases h : isAvailableFromTimeline t <;>
      simp [NativePerformance.getEntriesByType, h, PerformanceEntryReporter.getEntries]
  · simp [NativePerformance.getEntriesByName, ENTRY_TYPES_AVAILABLE_FROM_TIMELINE,
      PerformanceEntryReporter.getEntries, PerformanceEntryReporter.getBuffer]
  · by_cases h : isAvailableFromTimeline t <;>
      simp [NativePerformance.getEntriesByName, h, PerformanceEntryReporter.getEntries]

/-- Witness for C6 at the spec's example: recording A@5, B@3, C@3 in that order
makes `getEntries` yield names [B, C, A] — C stays before A's time and after B,
preserving insertion order at the equal timestamp 3. -/
theorem multi_entry_results_sorted_stable_witness :
    [markB3, markC3].Pairwise PerformanceEntrySorter ∧
    [markB3, markC3].Sublist [markA5, markB3, markC3] ∧
    [markB3, markC3].Sublist (sortEntries [markA5, markB3, markC3]) ∧
    (NativePerformance.getEntries reporterABC).map NativePerformanceEntry.name =
      ["B", "C", "A"] := by
  refine ⟨by decide, by decide, ?_, by decide⟩
  exact (multi_entry_results_sorted_stable reporterABC "B" .mark observerBase
      [markA5, markB3, markC3] [markB3, markC3]).2.2.1 (by decide) (by decide)

/-- C10 counterexample: an observer subscribed in single mode with every
optional field omitted (so durationThreshold defaults to zero) does NOT
receive entries of every duration: the Measure entry "neg" of duration −10 has
the subscribed type yet is not delivered (the observer state, pending queue
included, is unchanged), because the zero default threshold filters durations
below zero. -/
theorem observe_default_threshold_misses_negative_duration :
    observerDefaultMeasure.subscribedTypes = [.measure] ∧
    observerDefaultMeasure.durationThreshold = 0 ∧
    negativeDurationMeasure.entryType = .measure ∧
    negativeDurationMeasure.duration = -10 ∧
    observerDefaultMeasure.handleEntry negativeDurationMeasure = observerDefaultMeasure := by
  exact ⟨rfl, rfl, rfl, rfl, by decide⟩

/-- C10 (amended): a single-mode observe call with omitted options fills them
with fixed defaults before subscribing — durationThreshold defaults to the
zero duration and buffered defaults to false — so the observer subscribes to
exactly the given type with zero threshold, performs no historical replay
(pending queue unchanged), and subsequently every entry of the subscribed type
with non-negative duration passes its filter and is enqueued. -/
theorem observe_single_mode_defaults (r : PerformanceEntryReporter)
    (o : PerformanceObserver)
    (options : NativePerformancePerformanceObserverObserveOptions)
    (t : PerformanceEntryType)
    (hTypes : options.entryTypes = none) (hType : options.type = some t)
    (hBuf : options.buffered = none) (hThr : options.durationThreshold = none) :
    NativePerformance.observe r (some o) options =
      some { o with subscribedTypes := [t], durationThreshold := 0 } ∧
    (∀ o', NativePerformance.observe r (some o) options = some o' →
      o'.pendingRecords = o.pendingRecords ∧
      ∀ entry : PerformanceEntry, entry.entryType = t → 0 ≤ entry.duration →
        o'.handleEntry entry = o'.enqueue entry) := by
  have hobs : NativePerformance.observe r (some o) options =
      some { o with subscribedTypes := [t], durationThreshold := 0 } := by
    simp [NativePerformance.observe, hTypes, hType, hBuf, hThr,
      PerformanceObserver.observeSingle]
  refine ⟨hobs, ?_⟩
  intro o' ho'
  rw [hobs] at ho'
  obtain rfl := (Option.some.injEq _ _).mp ho'
  refine ⟨rfl, ?_⟩
  intro entry ht hd
  simp [PerformanceObserver.handleEntry, ht, hd]

/-- Witness for the amended C10 at a concrete input: the all-defaults MEASURE
subscription, receiving a Measure entry of duration 10. -/
theorem observe_single_mode_defaults_witness :
    NativePerformance.observe initialReporter (some observerBase)
        defaultMeasureObserveOptions =
      some { observerBase with subscribedTypes := [.measure], durationThreshold := 0 } ∧
    positiveDurationMeasure.entryType = .measure ∧
    (0 : HighResDuration) ≤ positiveDurationMeasure.duration ∧
    observerDefaultMeasure.handleEntry positiveDurationMeasure =
      observerDefaultMeasure.enqueue positiveDurationMeasure := by
  have h := observe_single_mode_defaults initialReporter observerBase
    defaultMeasureObserveOptions .measure rfl rfl rfl rfl
  refine ⟨h.1, rfl, by decide, ?_⟩
  exact (h.2 observerDefaultMeasure (by decide)).2 positiveDurationMeasure rfl (by decide)
